import Mathlib

/-
Shallow embedding of the WhatsApp Group Notifier API (src/unnamed/part_002,
with src/unnamed/part_000 as the near-identical sibling variant).

The embedding covers the pure core the specification is about:
 * JS truthiness / string coercion helpers used by the handler,
 * parseAckLevel and the ack-level tables,
 * the waitForAck promise modelled as a state machine over a trace of
   "message_ack" events interleaved with the single setTimeout firing,
 * the POST /send-group handler (auth gate, readiness gate, validation,
   group resolution, response shaping), with the external collaborators
   (sendMessage result, chat listing, event trace) passed in as data,
 * the startup environment guards.

JS strings are modelled as Lean String; `.trim()` and `.toLowerCase()`
are given structurally recursive models (jsTrim / jsLower) so that the
kernel can evaluate them on concrete inputs.  Absent / undefined JSON
fields are modelled as Option.  JS numbers occurring here are integers
(timeouts, ack codes), modelled as Int; the NaN result of Number(...)
on an unparseable string is modelled as Option.none where relevant.
-/

namespace Notifier

/-- Model of JS `String.prototype.toLowerCase` (per-character lowercasing,
as used on ASCII group names and ack-level strings). -/
def jsLower (s : String) : String := ⟨s.data.map Char.toLower⟩

/-- Model of JS `String.prototype.trim`: strip leading and trailing
whitespace. -/
def jsTrim (s : String) : String :=
  ⟨((s.data.dropWhile Char.isWhitespace).reverse.dropWhile Char.isWhitespace).reverse⟩

/-- JS truthiness of a possibly-undefined string: `undefined` and the empty
string are falsy. -/
def strTruthy : Option String → Bool
  | some s => s ≠ ""
  | none => false

/-- Model of `String(x || "")` applied to a possibly-undefined string field:
undefined becomes the empty string. -/
def jsStr (o : Option String) : String := o.getD ""

/-- Model of the JS expression `a || b` on possibly-undefined strings
(used for `message.id?._serialized || message._serialized`). -/
def jsOrS (a b : Option String) : Option String := if strTruthy a then a else b

/-- Model of `s || fallback` followed by `String(...)` in parseAckLevel:
a falsy `s` (undefined or empty) selects the fallback. -/
def jsStrOr (s : Option String) (fallback : String) : String :=
  match s with
  | some t => if t = "" then fallback else t
  | none => fallback

/-- Result record of parseAckLevel: `{ name, code }`. -/
structure AckLevel where
  name : String
  code : Int
deriving DecidableEq

/-- The own properties of the `AckMap` object literal:
`{ server: 1, device: 2, read: 3, played: 4 }`, as a lookup returning
`none` when the key is not an own property. -/
def AckMap (k : String) : Option Int :=
  if k = "server" then some 1
  else if k = "device" then some 2
  else if k = "read" then some 3
  else if k = "played" then some 4
  else none

/-- Embedding of `parseAckLevel(s, fallback = ACK_LEVEL_DEFAULT)`:
`const k = String(s || fallback).toLowerCase();
 return AckMap[k] ? { name: k, code: AckMap[k] } : { name: "server", code: 1 };`
restricted to the numeric own-property part of the lookup.  This
restriction is exact for every key that is an own property of the literal
or misses the whole prototype chain; for the property names inherited
from Object.prototype the JS lookup additionally yields a truthy
non-numeric value, which `parseAckLevelJs` below models in full. -/
def parseAckLevel (s : Option String) (fallback : String) : AckLevel :=
  let k := jsLower (jsStrOr s fallback)
  match AckMap k with
  | some c => ⟨k, c⟩
  | none => ⟨"server", 1⟩

/-- Value produced by the JS property lookup `AckMap[k]`: one of the
literal's own numbers, a truthy non-numeric value inherited from
Object.prototype (a function, or the prototype object for `__proto__`),
or `undefined`. -/
inductive AckLookup where
  | num (n : Int)
  | protoValue
  | missing
deriving DecidableEq

/-- Property names every object literal inherits from Object.prototype:
looking any of these up on `AckMap` yields a truthy non-numeric value
instead of `undefined`. -/
def objectProtoKeys : List String :=
  ["constructor", "hasOwnProperty", "isPrototypeOf", "propertyIsEnumerable",
   "toLocaleString", "toString", "valueOf", "__proto__",
   "__defineGetter__", "__defineSetter__", "__lookupGetter__",
   "__lookupSetter__"]

/-- Full embedding of the JS property lookup `AckMap[k]`, prototype chain
included: the four own keys yield their numbers, the keys of
Object.prototype yield a truthy inherited value, everything else is
`undefined`. -/
def ackMapLookup (k : String) : AckLookup :=
  match AckMap k with
  | some n => .num n
  | none => if k ∈ objectProtoKeys then .protoValue else .missing

/-- JS truthiness of a lookup result: the stored numbers 1-4 are nonzero
and the inherited values are functions/objects, so all are truthy;
`undefined` is falsy. -/
def AckLookup.truthy : AckLookup → Bool
  | .num n => n ≠ 0
  | .protoValue => true
  | .missing => false

/-- Result record of the full parseAckLevel model: `code` is the raw JS
value stored by `{ name: k, code: AckMap[k] }`, which is non-numeric for
prototype-inherited keys. -/
structure AckLevelJs where
  name : String
  code : AckLookup
deriving DecidableEq

/-- Embedding of `parseAckLevel` with the prototype-chain lookup kept:
`return AckMap[k] ? { name: k, code: AckMap[k] } : { name: "server", code: 1 };`. -/
def parseAckLevelJs (s : Option String) (fallback : String) : AckLevelJs :=
  let k := jsLower (jsStrOr s fallback)
  if (ackMapLookup k).truthy then ⟨k, ackMapLookup k⟩ else ⟨"server", AckLookup.num 1⟩

/-- The `ackNames` object literal in the handler:
`{ 0: "error", 1: "server", 2: "device", 3: "read", 4: "played" }`. -/
def ackNames (a : Int) : Option String :=
  if a = 0 then some "error"
  else if a = 1 then some "server"
  else if a = 2 then some "device"
  else if a = 3 then some "read"
  else if a = 4 then some "played"
  else none

/-- Embedding of `ackNames[ack] || String(ack)`. -/
def ackToStr (a : Int) : String := (ackNames a).getD (toString a)

/-- Embedding of `const timeoutMs = Number(req.body?.timeoutMs || ACK_TIMEOUT_MS)`:
an absent or zero (falsy) caller value selects the configured default. -/
def effTimeoutMs (reqTimeout : Option Int) (default : Int) : Int :=
  match reqTimeout with
  | none => default
  | some t => if t = 0 then default else t

/-- Embedding of the startup environment guards of src/unnamed/part_002
lines 42-53.  Inputs: the BOT_TOKEN and MONGO_URL strings ("" when the
variable is unset, matching `process.env.X || ""`), and the parsed
WA_BACKUP_MS value, where `none` models `Number(raw)` being NaN and the
raw default is "0" when the variable is unset.  Returns `true` exactly
when one of the three `process.exit(1)` guards fires. -/
def startupExitsEarly (botToken mongoUrl : String) (backupMs : Option Int) : Bool :=
  if botToken = "" || mongoUrl = "" then true
  else
    match backupMs with
    | none => true
    | some n =>
      if n < 0 then true
      else if n ≠ 0 && n < 60000 then true
      else false

/-- The specification's description of a fatal startup configuration:
missing shared secret, missing session-store target, or an invalid backup
interval (not a number, negative, or nonzero but below the 60000 ms
minimum). -/
def ConfigInvalid (botToken mongoUrl : String) (backupMs : Option Int) : Prop :=
  botToken = "" ∨ mongoUrl = "" ∨ backupMs = none ∨
    ∃ n, backupMs = some n ∧ (n < 0 ∨ (n ≠ 0 ∧ n < 60000))

/--
Embedding of `waitForAck(message, minAckCode, timeoutMs)`.

The promise body is modelled as a state machine consuming a trace of
events: each "message_ack" emission visible to the registered listener is
an `ackEv` carrying the event message's computed identifier
(`msg?.id?._serialized || msg?._serialized`, with `none` standing for a
falsy result) and its ack code, and the single `setTimeout` firing is the
`timer` event.  `resolve(...)` calls are recorded by appending to
`resolutions`, so exactly-once resolution is the statement that the final
list has length one.  `listening` models the listener being registered
(after `removeListener` the handler is never invoked again), and
`settled` is the flag of the same name.
-/
inductive WEvent where
  | ackEv (evId : Option String) (ack : Int)
  | timer
deriving DecidableEq

/-- The value passed to `resolve`: `{ ack, timedOut }`. -/
structure Resolution where
  ack : Int
  timedOut : Bool
deriving DecidableEq

/-- State of one waitForAck instance. -/
structure WaitState where
  settled : Bool
  listening : Bool
  resolutions : List Resolution
deriving DecidableEq

/-- State at promise construction: not settled, listener registered by
`client.on("message_ack", onAck)`, no resolution yet. -/
def initWait : WaitState := ⟨false, true, []⟩

/-- Embedding of the `onAck` handler (guarded by the listener still being
registered): `const id = ...; if (!id || id !== targetId) return;
if (ack >= minAckCode) { cleanup(); resolve({ ack, timedOut: false }); }`.
`cleanup` sets `settled` and removes the listener. -/
def onAckStep (targetId : Option String) (minAck : Int) (s : WaitState)
    (evId : Option String) (ack : Int) : WaitState :=
  if s.listening then
    match evId with
    | none => s
    | some i =>
      if i = "" then s
      else if some i = targetId then
        if minAck ≤ ack then ⟨true, false, s.resolutions ++ [⟨ack, false⟩]⟩
        else s
      else s
  else s

/-- Embedding of the `setTimeout` callback: `if (!settled) { cleanup();
resolve({ ack: message.ack ?? 1, timedOut: true }); }` — `lastKnown` is
the precomputed `message.ack ?? 1`. -/
def timerStep (lastKnown : Int) (s : WaitState) : WaitState :=
  if s.settled then s
  else ⟨true, false, s.resolutions ++ [⟨lastKnown, true⟩]⟩

/-- One step of a waitForAck instance on an event of the interleaving. -/
def waitStep (targetId : Option String) (minAck lastKnown : Int)
    (s : WaitState) : WEvent → WaitState
  | .ackEv evId ack => onAckStep targetId minAck s evId ack
  | .timer => timerStep lastKnown s

/-- Run of one waitForAck instance over a whole event trace. -/
def runWait (targetId : Option String) (minAck lastKnown : Int)
    (trace : List WEvent) : WaitState :=
  trace.foldl (waitStep targetId minAck lastKnown) initWait

/-- An event qualifies when its identifier is truthy, equals the awaited
message's identifier, and its ack code reaches the minimum. -/
def qualEvent (targetId : Option String) (minAck : Int) : WEvent → Bool
  | .ackEv evId ack => strTruthy evId && (evId == targetId) && (minAck ≤ ack)
  | .timer => false

/-- Ack code carried by an event (0 for the timer, unused). -/
def evAck : WEvent → Int
  | .ackEv _ a => a
  | .timer => 0

/-- A settled instance whose listener is removed absorbs every further
event: both handlers are no-ops. -/
theorem waitStep_absorb (targetId : Option String) (minAck lastKnown : Int)
    (s : WaitState) (h1 : s.settled = true) (h2 : s.listening = false) :
    ∀ e, waitStep targetId minAck lastKnown s e = s := by
  intro e
  cases e with
  | ackEv evId ack => simp [waitStep, onAckStep, h2]
  | timer => simp [waitStep, timerStep, h1]

/-- Folding any further events over an absorbed state leaves it fixed. -/
theorem foldl_absorb (targetId : Option String) (minAck lastKnown : Int)
    (s : WaitState) (h1 : s.settled = true) (h2 : s.listening = false) :
    ∀ l : List WEvent, l.foldl (waitStep targetId minAck lastKnown) s = s := by
  intro l
  induction l with
  | nil => rfl
  | cons e rest ih =>
    rw [List.foldl_cons, waitStep_absorb targetId minAck lastKnown s h1 h2 e, ih]

/-- On a qualifying event, a listening instance resolves with that event's
ack code and tears down. -/
theorem onAckStep_qual (targetId : Option String) (minAck : Int)
    (s : WaitState) (evId : Option String) (ack : Int)
    (hl : s.listening = true)
    (hq : qualEvent targetId minAck (.ackEv evId ack) = true) :
    onAckStep targetId minAck s evId ack
      = ⟨true, false, s.resolutions ++ [⟨ack, false⟩]⟩ := by
  cases evId with
  | none => simp [qualEvent, strTruthy] at hq
  | some i =>
    simp only [qualEvent, strTruthy, Bool.and_eq_true, beq_iff_eq,
      decide_eq_true_eq] at hq
    obtain ⟨⟨hne, heq⟩, hle⟩ := hq
    simp [onAckStep, hl, hne, heq, hle]

/-- On a non-qualifying ack event, the handler leaves the state unchanged. -/
theorem onAckStep_not_qual (targetId : Option String) (minAck : Int)
    (s : WaitState) (evId : Option String) (ack : Int)
    (hq : qualEvent targetId minAck (.ackEv evId ack) = false) :
    onAckStep targetId minAck s evId ack = s := by
  by_cases hl : s.listening
  · cases evId with
    | none => simp [onAckStep, hl]
    | some i =>
      simp only [qualEvent, strTruthy, Bool.and_eq_false_iff, beq_iff_eq,
        decide_eq_false_iff_not, Decidable.not_not] at hq
      by_cases hne : i = ""
      · simp [onAckStep, hl, hne]
      · by_cases heq : some i = targetId
        · rcases hq with (hq' | hq') | hlt
          · exact absurd hne (by simpa using hq')
          · exact absurd heq (by simpa using hq')
          · simp [onAckStep, hl, hne, heq, hlt]
        · simp [onAckStep, hl, hne, heq]
  · simp [onAckStep, hl]

/-- Every step either leaves the state unchanged or (from a listening or
unsettled state) resolves: it settles, removes the listener, and appends
exactly one resolution. -/
theorem waitStep_cases (targetId : Option String) (minAck lastKnown : Int)
    (s : WaitState) (e : WEvent) :
    waitStep targetId minAck lastKnown s e = s ∨
    ((s.listening = true ∨ s.settled = false) ∧
      ∃ r, waitStep targetId minAck lastKnown s e
        = ⟨true, false, s.resolutions ++ [r]⟩) := by
  cases e with
  | timer =>
    by_cases hs : s.settled
    · exact Or.inl (by simp [waitStep, timerStep, hs])
    · exact Or.inr ⟨Or.inr (Bool.eq_false_iff.mpr hs), ⟨lastKnown, true⟩,
        by simp [waitStep, timerStep, hs]⟩
  | ackEv evId ack =>
    by_cases hl : s.listening
    · cases evId with
      | none => exact Or.inl (by simp [waitStep, onAckStep, hl])
      | some i =>
        by_cases hne : i = ""
        · exact Or.inl (by simp [waitStep, onAckStep, hl, hne])
        · by_cases heq : some i = targetId
          · by_cases hle : minAck ≤ ack
            · exact Or.inr ⟨Or.inl hl, ⟨ack, false⟩,
                by simp [waitStep, onAckStep, hl, hne, heq, hle]⟩
            · exact Or.inl (by simp [waitStep, onAckStep, hl, hne, heq, hle])
          · exact Or.inl (by simp [waitStep, onAckStep, hl, hne, heq])
    · exact Or.inl (by simp [waitStep, onAckStep, hl])

/-- Once settled, an instance stays settled through any event. -/
theorem waitStep_settled_mono (targetId : Option String)
    (minAck lastKnown : Int) (s : WaitState) (e : WEvent)
    (h : s.settled = true) :
    (waitStep targetId minAck lastKnown s e).settled = true := by
  rcases waitStep_cases targetId minAck lastKnown s e with heq | ⟨-, r, heq⟩
  · rw [heq]; exact h
  · rw [heq]

/-- Settledness is preserved by any further run. -/
theorem foldl_settled_mono (targetId : Option String)
    (minAck lastKnown : Int) (s : WaitState) (l : List WEvent)
    (h : s.settled = true) :
    (l.foldl (waitStep targetId minAck lastKnown) s).settled = true := by
  induction l generalizing s with
  | nil => exact h
  | cons e rest ih =>
    rw [List.foldl_cons]
    exact ih _ (waitStep_settled_mono targetId minAck lastKnown s e h)

/-- A trace containing the timer firing leaves the instance settled. -/
theorem foldl_timer_settled (targetId : Option String)
    (minAck lastKnown : Int) (s : WaitState) (l : List WEvent)
    (hmem : WEvent.timer ∈ l) :
    (l.foldl (waitStep targetId minAck lastKnown) s).settled = true := by
  induction l generalizing s with
  | nil => cases hmem
  | cons e rest ih =>
    rw [List.foldl_cons]
    rcases List.mem_cons.mp hmem with he | hrest
    · subst he
      apply foldl_settled_mono
      by_cases hs : s.settled
      · simp [waitStep, timerStep, hs]
      · simp [waitStep, timerStep, hs]
    · exact ih _ hrest

/-- Structural invariant of a waitForAck instance: the listener is
registered exactly while unsettled, and the number of `resolve` calls is 0
before settling and 1 after. -/
def WaitInv (s : WaitState) : Prop :=
  s.listening = !s.settled ∧ s.resolutions.length = (if s.settled then 1 else 0)

theorem waitInv_init : WaitInv initWait := by
  constructor <;> simp [initWait]

theorem waitInv_step (targetId : Option String) (minAck lastKnown : Int)
    (s : WaitState) (e : WEvent) (h : WaitInv s) :
    WaitInv (waitStep targetId minAck lastKnown s e) := by
  obtain ⟨h1, h2⟩ := h
  rcases waitStep_cases targetId minAck lastKnown s e with heq | ⟨hcase, r, heq⟩
  · rw [heq]; exact ⟨h1, h2⟩
  · have hs : s.settled = false := by
      rcases hcase with hl | hs
      · cases hset : s.settled
        · rfl
        · rw [hset] at h1; rw [hl] at h1; simp at h1
      · exact hs
    have hlen : s.resolutions.length = 0 := by
      rw [h2, hs]; rfl
    rw [heq]
    refine ⟨rfl, ?_⟩
    simp [hlen]

theorem waitInv_foldl (targetId : Option String) (minAck lastKnown : Int)
    (s : WaitState) (l : List WEvent) (h : WaitInv s) :
    WaitInv (l.foldl (waitStep targetId minAck lastKnown) s) := by
  induction l generalizing s with
  | nil => exact h
  | cons e rest ih =>
    rw [List.foldl_cons]
    exact ih _ (waitInv_step targetId minAck lastKnown s e h)

/-- Characterization of the run over a timer-free prefix: if no event
qualifies the state is untouched, and otherwise the first qualifying event
resolves the instance with its ack code and the rest of the prefix is
absorbed. -/
theorem run_pre_char (targetId : Option String) (minAck lastKnown : Int)
    (pre : List WEvent) (hnt : WEvent.timer ∉ pre) :
    pre.foldl (waitStep targetId minAck lastKnown) initWait =
      match pre.find? (qualEvent targetId minAck) with
      | none => initWait
      | some e => ⟨true, false, [⟨evAck e, false⟩]⟩ := by
  induction pre with
  | nil => rfl
  | cons e rest ih =>
    have hent : e ≠ WEvent.timer := fun h => hnt (h ▸ List.mem_cons_self e rest)
    have hrnt : WEvent.timer ∉ rest := fun h => hnt (List.mem_cons_of_mem e h)
    by_cases hq : qualEvent targetId minAck e = true
    · rw [List.find?_cons_of_pos rest hq, List.foldl_cons]
      cases e with
      | timer => exact absurd rfl hent
      | ackEv evId ack =>
        rw [show waitStep targetId minAck lastKnown initWait (.ackEv evId ack)
            = onAckStep targetId minAck initWait evId ack from rfl,
          onAckStep_qual targetId minAck initWait evId ack rfl hq]
        simp only [initWait, List.nil_append, evAck]
        exact foldl_absorb targetId minAck lastKnown _ rfl rfl rest
    · rw [List.find?_cons_of_neg rest hq, List.foldl_cons]
      cases e with
      | timer => exact absurd rfl hent
      | ackEv evId ack =>
        rw [show waitStep targetId minAck lastKnown initWait (.ackEv evId ack)
            = onAckStep targetId minAck initWait evId ack from rfl,
          onAckStep_not_qual targetId minAck initWait evId ack
            (Bool.eq_false_iff.mpr hq)]
        exact ih hrnt

/-- A trace whose timer-free prefix has no qualifying event resolves by
timeout with the last-known ack level. -/
theorem runWait_timeout (targetId : Option String) (minAck lastKnown : Int)
    (pre post : List WEvent) (hnt : WEvent.timer ∉ pre)
    (hfind : pre.find? (qualEvent targetId minAck) = none) :
    runWait targetId minAck lastKnown (pre ++ WEvent.timer :: post)
      = ⟨true, false, [⟨lastKnown, true⟩]⟩ := by
  unfold runWait
  rw [List.foldl_append, List.foldl_cons]
  have hpre := run_pre_char targetId minAck lastKnown pre hnt
  rw [hfind] at hpre
  rw [hpre]
  have hstep : waitStep targetId minAck lastKnown initWait WEvent.timer
      = ⟨true, false, [⟨lastKnown, true⟩]⟩ := by
    simp [waitStep, timerStep, initWait]
  rw [hstep, foldl_absorb targetId minAck lastKnown _ rfl rfl post]

/-- One conversation entry as returned by `client.getChats()`: its
serialized identifier, its group flag, and its possibly-absent display
name. -/
structure Chat where
  idSerialized : String
  isGroup : Bool
  name : Option String
deriving DecidableEq

/-- The matching predicate of the name-resolution branch:
`c.isGroup && String(c.name || "").toLowerCase() === group.toLowerCase()`
(the handler applies it to the already-trimmed group name). -/
def groupNameMatches (group : String) (c : Chat) : Bool :=
  c.isGroup && (jsLower (jsStr c.name) == jsLower group)

/-- HTTP response as shaped by the /send-group handler.  Error responses
carry a status and an error message; the success response carries the 200
payload fields. -/
structure Response where
  status : Nat
  ok : Bool
  errMsg : Option String
  groupIdOut : Option String
  messageId : Option String
  ackOut : Option String
  timedOutOut : Option Bool
  waitedFor : Option String
  timeoutMsOut : Option Int
deriving DecidableEq

/-- An error response `res.status(st).json({ error: msg })`. -/
def errorResp (status : Nat) (msg : String) : Response :=
  ⟨status, false, some msg, none, none, none, none, none, none⟩

/-- Marker for a handler run whose awaited promise never resolves, so no
HTTP response is produced.  Unreachable whenever the trace contains the
timer firing, which `setTimeout` guarantees in every real execution. -/
def pendingResp : Response :=
  ⟨0, false, none, none, none, none, none, none, none⟩

/-- Embedding of the chat-resolution block of the handler
(src/unnamed/part_002 lines 211-224): an explicit (trimmed, truthy)
groupId is used directly; otherwise a truthy group name is resolved
against the listing; otherwise 400. -/
def resolveChat (groupId group : String) (chats : List Chat) :
    Except Response String :=
  if groupId ≠ "" then Except.ok groupId
  else if group ≠ "" then
    match chats.find? (groupNameMatches group) with
    | some g => Except.ok g.idSerialized
    | none => Except.error (errorResp 404 "group not found")
  else Except.error (errorResp 400 "groupId or group is required")

/-- Server configuration relevant to the handler. -/
structure Config where
  botToken : String
  ackLevelDefault : String
  ackTimeoutMs : Int
deriving DecidableEq

/-- JSON body of a /send-group request; absent fields are `none`.
`timeoutMs` is modelled as an integer JSON number when present. -/
structure Request where
  botToken : Option String
  group : Option String
  groupId : Option String
  message : Option String
  ack : Option String
  timeoutMs : Option Int
deriving DecidableEq

/-- The message handle returned by `client.sendMessage`: the two id fields
consulted by `message.id?._serialized || message._serialized`, and the
handle's own last-known ack level (`message.ack`, absent when unknown). -/
structure SentMsg where
  idSer : Option String
  fallbackSer : Option String
  ack : Option Int
deriving DecidableEq

/--
Embedding of the POST /send-group handler (src/unnamed/part_002 lines
199-247) composed with `requireBodyToken`.  The external collaborators are
passed as data: the readiness flag, the chat listing, the message handle
returned by sendMessage, and the trace of message_ack events interleaved
with the timer firing that drives waitForAck.  The catch-all 500 branch
(a throwing transport call) lies outside this pure model: `sent` is
always the successfully returned handle.
-/
def sendGroupHandler (cfg : Config) (isReady : Bool) (req : Request)
    (chats : List Chat) (sent : SentMsg) (trace : List WEvent) : Response :=
  if req.botToken = some cfg.botToken then
    if isReady then
      let group := jsTrim (jsStr req.group)
      let groupId := jsTrim (jsStr req.groupId)
      let text := jsTrim (jsStr req.message)
      if text = "" then errorResp 400 "message is required"
      else
        let al := parseAckLevel req.ack cfg.ackLevelDefault
        let timeoutMs := effTimeoutMs req.timeoutMs cfg.ackTimeoutMs
        match resolveChat groupId group chats with
        | Except.error r => r
        | Except.ok chatId =>
          let targetId := jsOrS sent.idSer sent.fallbackSer
          let w := runWait targetId al.code (sent.ack.getD 1) trace
          match w.resolutions.head? with
          | none => pendingResp
          | some r =>
            ⟨200, true, none, some chatId,
              (if strTruthy sent.idSer then sent.idSer else none),
              some (ackToStr r.ack), some r.timedOut, some al.name,
              some timeoutMs⟩
    else errorResp 503 "whatsapp not ready"
  else errorResp 401 "unauthorized"

/-- In a list split around the first element satisfying `p`, `find?`
returns exactly that element. -/
theorem find?_first {α : Type} (p : α → Bool) (l1 l2 : List α) (g : α)
    (h1 : ∀ x ∈ l1, p x = false) (hg : p g = true) :
    (l1 ++ g :: l2).find? p = some g := by
  induction l1 with
  | nil => simpa using List.find?_cons_of_pos l2 hg
  | cons a rest ih =>
    have ha : p a = false := h1 a (List.mem_cons_self a rest)
    rw [List.cons_append, List.find?_cons_of_neg _ (by simp [ha])]
    exact ih fun x hx => h1 x (List.mem_cons_of_mem a hx)

end Notifier

namespace Notifier

/-- C1: for every awaited message, minimum level, and interleaving of
delivery-ack events with the timer firing, the waitForAck promise resolves
at most once; when the timer fires somewhere in the interleaving it
resolves exactly once, and after that every further qualifying event or
timer firing is a no-op on the instance. -/
theorem waitForAck_exactly_once (targetId : Option String)
    (minAck lastKnown : Int) (trace : List WEvent) :
    (runWait targetId minAck lastKnown trace).resolutions.length ≤ 1 ∧
    (WEvent.timer ∈ trace →
      (runWait targetId minAck lastKnown trace).resolutions.length = 1 ∧
      ∀ e, waitStep targetId minAck lastKnown
          (runWait targetId minAck lastKnown trace) e
        = runWait targetId minAck lastKnown trace) := by
  have hinv : WaitInv (runWait targetId minAck lastKnown trace) :=
    waitInv_foldl targetId minAck lastKnown initWait trace waitInv_init
  obtain ⟨h1, h2⟩ := hinv
  constructor
  · rw [h2]
    by_cases hs : (runWait targetId minAck lastKnown trace).settled <;> simp [hs]
  · intro hmem
    have hset : (runWait targetId minAck lastKnown trace).settled = true :=
      foldl_timer_settled targetId minAck lastKnown initWait trace hmem
    have hlist : (runWait targetId minAck lastKnown trace).listening = false := by
      rw [h1, hset]; rfl
    refine ⟨?_, waitStep_absorb targetId minAck lastKnown _ hset hlist⟩
    rw [h2, if_pos hset]

/-- Witness for C1: one qualifying event followed by the timer yields
exactly one resolution. -/
theorem waitForAck_exactly_once_witness :
    (runWait (some "m1") 2 1
      [WEvent.ackEv (some "m1") 3, WEvent.timer]).resolutions.length = 1 :=
  ((waitForAck_exactly_once (some "m1") 2 1
    [WEvent.ackEv (some "m1") 3, WEvent.timer]).2 (by decide)).1

/-- C2: in every interleaving whose timer firing is preceded by a
timer-free prefix of delivery-ack events, waitForAck resolves exactly
once, and the resolution has timedOut = true iff no event of the prefix
matches the awaited identifier at or above the minimum level. -/
theorem waitForAck_timedOut_iff (targetId : Option String)
    (minAck lastKnown : Int) (pre post : List WEvent)
    (hnt : WEvent.timer ∉ pre) :
    ∃ r, (runWait targetId minAck lastKnown
        (pre ++ WEvent.timer :: post)).resolutions = [r] ∧
      (r.timedOut = true ↔ ∀ e ∈ pre, qualEvent targetId minAck e = false) := by
  unfold runWait
  rw [List.foldl_append, List.foldl_cons]
  rcases hfind : pre.find? (qualEvent targetId minAck) with _ | e
  · have hpre := run_pre_char targetId minAck lastKnown pre hnt
    rw [hfind] at hpre
    rw [hpre]
    have hstep : waitStep targetId minAck lastKnown initWait WEvent.timer
        = ⟨true, false, [⟨lastKnown, true⟩]⟩ := by
      simp [waitStep, timerStep, initWait]
    rw [hstep, foldl_absorb targetId minAck lastKnown _ rfl rfl post]
    refine ⟨⟨lastKnown, true⟩, rfl, ?_⟩
    simp only [true_iff]
    intro e he
    have := List.find?_eq_none.mp hfind e he
    exact Bool.eq_false_iff.mpr this
  · have hpre := run_pre_char targetId minAck lastKnown pre hnt
    rw [hfind] at hpre
    rw [hpre]
    have hstep : waitStep targetId minAck lastKnown
        ⟨true, false, [⟨evAck e, false⟩]⟩ WEvent.timer
        = ⟨true, false, [⟨evAck e, false⟩]⟩ := by
      simp [waitStep, timerStep]
    rw [hstep, foldl_absorb targetId minAck lastKnown _ rfl rfl post]
    refine ⟨⟨evAck e, false⟩, rfl, ?_⟩
    simp only [Bool.false_eq_true, false_iff, not_forall]
    exact ⟨e, List.mem_of_find?_eq_some hfind,
      by simp [List.find?_some hfind]⟩

/-- Witness for C2: a single below-threshold event then the timer yields a
timed-out resolution. -/
theorem waitForAck_timedOut_iff_witness :
    ∃ r, (runWait (some "m2") 2 1
        ([WEvent.ackEv (some "m2") 1] ++ WEvent.timer :: [])).resolutions = [r] ∧
      (r.timedOut = true ↔
        ∀ e ∈ [WEvent.ackEv (some "m2") 1], qualEvent (some "m2") 2 e = false) :=
  waitForAck_timedOut_iff (some "m2") 2 1 [WEvent.ackEv (some "m2") 1] []
    (by decide)

/-- C3: an ack event carrying message A's identifier never changes the
state of (in particular never resolves) a wait registered for a different
message B; in general the handler changes the state only on events
carrying exactly its own target identifier. -/
theorem waitForAck_isolation (idA idB : String) (hAB : idA ≠ idB)
    (minAck a : Int) (s : WaitState) :
    onAckStep (some idB) minAck s (some idA) a = s ∧
    ∀ (targetId evId : Option String) (b : Int),
      onAckStep targetId minAck s evId b ≠ s → evId = targetId := by
  constructor
  · by_cases hl : s.listening
    · by_cases hne : idA = ""
      · simp [onAckStep, hl, hne]
      · have : ¬ (some idA = some idB) := by simpa using hAB
        simp [onAckStep, hl, hne, this]
    · simp [onAckStep, hl]
  · intro targetId evId b h
    by_cases hl : s.listening
    · cases evId with
      | none => exact absurd (by simp [onAckStep, hl]) h
      | some i =>
        by_cases hne : i = ""
        · exact absurd (by simp [onAckStep, hl, hne]) h
        · by_cases heq : some i = targetId
          · exact heq
          · exact absurd (by simp [onAckStep, hl, hne, heq]) h
    · exact absurd (by simp [onAckStep, hl]) h

/-- Witness for C3: an event for "a" leaves a fresh wait on "b" untouched. -/
theorem waitForAck_isolation_witness :
    onAckStep (some "b") 1 initWait (some "a") 4 = initWait :=
  (waitForAck_isolation "a" "b" (by decide) 1 4 initWait).1

/-- C4: when the timer-free prefix before the timeout contains a
qualifying event, waitForAck resolves with the ack level of the first such
event — later (possibly higher) events do not change the resolution. -/
theorem waitForAck_first_qualifying (targetId : Option String)
    (minAck lastKnown : Int) (pre post : List WEvent) (e : WEvent)
    (hnt : WEvent.timer ∉ pre)
    (hfind : pre.find? (qualEvent targetId minAck) = some e) :
    (runWait targetId minAck lastKnown
        (pre ++ WEvent.timer :: post)).resolutions = [⟨evAck e, false⟩] := by
  unfold runWait
  rw [List.foldl_append, List.foldl_cons]
  have hpre := run_pre_char targetId minAck lastKnown pre hnt
  rw [hfind] at hpre
  rw [hpre]
  have hstep : waitStep targetId minAck lastKnown
      ⟨true, false, [⟨evAck e, false⟩]⟩ WEvent.timer
      = ⟨true, false, [⟨evAck e, false⟩]⟩ := by
    simp [waitStep, timerStep]
  rw [hstep, foldl_absorb targetId minAck lastKnown _ rfl rfl post]

/-- Witness for C4: with minimum level 2, the first qualifying event at
level 2 wins over a later level-4 event. -/
theorem waitForAck_first_qualifying_witness :
    (runWait (some "m3") 2 1
        ([WEvent.ackEv (some "m3") 2, WEvent.ackEv (some "m3") 4]
          ++ WEvent.timer :: [])).resolutions
      = [⟨2, false⟩] :=
  waitForAck_first_qualifying (some "m3") 2 1
    [WEvent.ackEv (some "m3") 2, WEvent.ackEv (some "m3") 4] []
    (WEvent.ackEv (some "m3") 2) (by decide) (by decide)

/-- C5 (code bug): parseAckLevel is not the claimed total fallback.  The
object-literal lookup `AckMap[k]` walks the prototype chain, so for the
inherited key "constructor" (unchanged by lowercasing, not one of the four
levels) the condition `AckMap[k] ?` is truthy and the program returns
`{ name: "constructor", code: <inherited function> }` — with a name other
than "server" and a non-numeric code other than 1 — instead of the claimed
`{ name: "server", code: 1 }`. -/
theorem parseAckLevel_proto_leak :
    parseAckLevelJs (some "constructor") "device"
      = ⟨"constructor", AckLookup.protoValue⟩ ∧
    (parseAckLevelJs (some "constructor") "device").name ≠ "server" ∧
    (parseAckLevelJs (some "constructor") "device").code ≠ AckLookup.num 1 := by
  refine ⟨?_, ?_, ?_⟩ <;> decide

/-- C9: the startup guards exit with a non-zero status exactly when the
shared secret or the session-store target is missing, or the backup
interval is invalid (NaN, negative, or nonzero but below 60000 ms);
otherwise startup proceeds. -/
theorem startup_exit_iff (botToken mongoUrl : String) (backupMs : Option Int) :
    startupExitsEarly botToken mongoUrl backupMs = true ↔
      ConfigInvalid botToken mongoUrl backupMs := by
  unfold startupExitsEarly ConfigInvalid
  by_cases hb : botToken = ""
  · simp [hb]
  · by_cases hm : mongoUrl = ""
    · simp [hb, hm]
    · match backupMs with
      | none => simp [hb, hm]
      | some n =>
        by_cases hneg : n < 0
        · simp [hb, hm, hneg]
        · by_cases hz : n = 0
          · simp [hb, hm, hneg, hz]
          · by_cases hlow : n < 60000
            · simp [hb, hm, hneg, hz, hlow]
            · simp [hb, hm, hneg, hz, hlow]

/-- C10: the caller-supplied timeoutMs is replaced by the configured
default when absent or 0 (falsy); a nonzero (truthy) value is used as
given. -/
theorem timeoutMs_defaulting (d : Int) :
    effTimeoutMs none d = d ∧ effTimeoutMs (some 0) d = d ∧
    ∀ t : Int, t ≠ 0 → effTimeoutMs (some t) d = t := by
  refine ⟨rfl, by simp [effTimeoutMs], ?_⟩
  intro t ht
  simp [effTimeoutMs, ht]

/-- Witness for C10: a caller value of 5000 is used as given with the
default 20000 in place. -/
theorem timeoutMs_defaulting_witness : effTimeoutMs (some 5000) 20000 = 5000 :=
  (timeoutMs_defaulting 20000).2.2 5000 (by decide)

/-- C6: an explicit (nonempty) groupId is used directly as the target for
every chat listing, without consulting it; name resolution happens only
with groupId absent, matches group-flagged entries by case-insensitive
exact display name taking the first match in listing order, and yields
404 when nothing matches. -/
theorem sendGroup_resolution (groupId group : String) (chats : List Chat) :
    (groupId ≠ "" → resolveChat groupId group chats = Except.ok groupId) ∧
    (groupId = "" → group ≠ "" →
      (∀ c ∈ chats, groupNameMatches group c = false) →
      resolveChat groupId group chats
        = Except.error (errorResp 404 "group not found")) ∧
    (groupId = "" → group ≠ "" →
      ∀ (l1 l2 : List Chat) (g : Chat), chats = l1 ++ g :: l2 →
        (∀ c ∈ l1, groupNameMatches group c = false) →
        groupNameMatches group g = true →
        resolveChat groupId group chats = Except.ok g.idSerialized) := by
  refine ⟨?_, ?_, ?_⟩
  · intro h
    simp [resolveChat, h]
  · intro hgid hgrp hnone
    have hfind : chats.find? (groupNameMatches group) = none :=
      List.find?_eq_none.mpr fun c hc => by simp [hnone c hc]
    simp [resolveChat, hgid, hgrp, hfind]
  · intro hgid hgrp l1 l2 g hsplit h1 hg
    subst hsplit
    have hfind := find?_first (groupNameMatches group) l1 l2 g h1 hg
    simp [resolveChat, hgid, hgrp, hfind]

/-- Witness for C6: with no explicit id, the case-insensitive name
"RELEASE NOTICES" skips a same-named non-group contact and resolves to
the first matching group in listing order. -/
theorem sendGroup_resolution_witness :
    resolveChat "" "RELEASE NOTICES"
      [⟨"000@c.us", false, some "Release Notices"⟩,
       ⟨"111@g.us", true, some "Release Notices"⟩,
       ⟨"222@g.us", true, some "release notices"⟩]
      = Except.ok "111@g.us" :=
  (sendGroup_resolution "" "RELEASE NOTICES"
      [⟨"000@c.us", false, some "Release Notices"⟩,
       ⟨"111@g.us", true, some "Release Notices"⟩,
       ⟨"222@g.us", true, some "release notices"⟩]).2.2
    rfl (by decide)
    [⟨"000@c.us", false, some "Release Notices"⟩]
    [⟨"222@g.us", true, some "release notices"⟩]
    ⟨"111@g.us", true, some "Release Notices"⟩
    rfl (by decide) (by decide)

/-- Fixture configuration for the concrete handler runs. -/
def cfgEx : Config := ⟨"secret-token", "device", 20000⟩

/-- Fixture message handle returned by sendMessage. -/
def sentEx : SentMsg := ⟨some "true_123@g.us_AAA", none, none⟩

/-- Fixture request with a message that is empty after trimming but every
other field present and well-formed. -/
def reqEmptyMsgEx : Request :=
  ⟨some "secret-token", some "Release Notices", some "123@g.us",
    some "   ", some "read", some 5000⟩

/-- Fixture request with a non-empty message but neither group nor
groupId. -/
def reqNoTargetEx : Request :=
  ⟨some "secret-token", none, none, some "build passed", none, none⟩

/-- Fixture request targeting an explicit groupId. -/
def reqSendEx : Request :=
  ⟨some "secret-token", none, some "123@g.us", some "build passed",
    some "read", some 5000⟩

/-- Counterexample for C7: the readiness gate precedes message validation,
so an authorized request whose message is empty after trimming receives
503 — not 400 — while the client is not ready. -/
theorem sendGroup_emptyMessage_notReady_counterexample :
    (sendGroupHandler cfgEx false reqEmptyMsgEx [] sentEx []).status = 503 ∧
    ¬ (sendGroupHandler cfgEx false reqEmptyMsgEx [] sentEx []).status = 400 := by
  constructor
  · decide
  · decide

/-- C7 (amended): for every authorized request handled while the client is
ready, an empty-after-trimming message yields status 400 regardless of the
other body fields; likewise a request giving neither group nor groupId
yields 400.  (When the client is not ready the readiness gate answers 503
before validation.) -/
theorem sendGroup_validation_400 (cfg : Config) (req : Request)
    (chats : List Chat) (sent : SentMsg) (trace : List WEvent)
    (hauth : req.botToken = some cfg.botToken) :
    (jsTrim (jsStr req.message) = "" →
      (sendGroupHandler cfg true req chats sent trace).status = 400) ∧
    (jsTrim (jsStr req.group) = "" → jsTrim (jsStr req.groupId) = "" →
      (sendGroupHandler cfg true req chats sent trace).status = 400) := by
  constructor
  · intro hmsg
    simp [sendGroupHandler, hauth, hmsg, errorResp]
  · intro hgrp hgid
    by_cases hmsg : jsTrim (jsStr req.message) = ""
    · simp [sendGroupHandler, hauth, hmsg, errorResp]
    · simp [sendGroupHandler, hauth, hmsg, resolveChat, hgrp, hgid, errorResp]

/-- Witness for C7 (amended): the ready-state handler answers 400 both to
an empty message and to a missing target. -/
theorem sendGroup_validation_400_witness :
    (sendGroupHandler cfgEx true reqEmptyMsgEx [] sentEx []).status = 400 ∧
    (sendGroupHandler cfgEx true reqNoTargetEx [] sentEx []).status = 400 :=
  ⟨(sendGroup_validation_400 cfgEx reqEmptyMsgEx [] sentEx [] rfl).1 (by decide),
   (sendGroup_validation_400 cfgEx reqNoTargetEx [] sentEx [] rfl).2
     (by decide) (by decide)⟩

/-- C8: when the message was sent (the target resolved) and no qualifying
ack event arrived before the timeout fired, the handler answers 200 with
ok true, timedOut true, and the ack field naming the handle's last-known
ack level, which falls back to "server" (code 1) when none is known —
never an error status. -/
theorem sendGroup_ack_timeout_success (cfg : Config) (req : Request)
    (chats : List Chat) (sent : SentMsg) (chatId : String)
    (pre post : List WEvent)
    (hauth : req.botToken = some cfg.botToken)
    (hmsg : jsTrim (jsStr req.message) ≠ "")
    (hres : resolveChat (jsTrim (jsStr req.groupId)) (jsTrim (jsStr req.group))
        chats = Except.ok chatId)
    (hnt : WEvent.timer ∉ pre)
    (hnq : ∀ e ∈ pre, qualEvent (jsOrS sent.idSer sent.fallbackSer)
        (parseAckLevel req.ack cfg.ackLevelDefault).code e = false) :
    ((sendGroupHandler cfg true req chats sent
        (pre ++ WEvent.timer :: post)).status = 200) ∧
    ((sendGroupHandler cfg true req chats sent
        (pre ++ WEvent.timer :: post)).ok = true) ∧
    ((sendGroupHandler cfg true req chats sent
        (pre ++ WEvent.timer :: post)).timedOutOut = some true) ∧
    ((sendGroupHandler cfg true req chats sent
        (pre ++ WEvent.timer :: post)).ackOut
      = some (ackToStr (sent.ack.getD 1))) ∧
    (sent.ack = none →
      (sendGroupHandler cfg true req chats sent
          (pre ++ WEvent.timer :: post)).ackOut = some "server") := by
  have hfind : pre.find? (qualEvent (jsOrS sent.idSer sent.fallbackSer)
      (parseAckLevel req.ack cfg.ackLevelDefault).code) = none :=
    List.find?_eq_none.mpr fun e he => by simp [hnq e he]
  have hrun := runWait_timeout (jsOrS sent.idSer sent.fallbackSer)
    (parseAckLevel req.ack cfg.ackLevelDefault).code (sent.ack.getD 1)
    pre post hnt hfind
  have hshape : sendGroupHandler cfg true req chats sent
      (pre ++ WEvent.timer :: post)
      = ⟨200, true, none, some chatId,
          (if strTruthy sent.idSer then sent.idSer else none),
          some (ackToStr (sent.ack.getD 1)), some true,
          some (parseAckLevel req.ack cfg.ackLevelDefault).name,
          some (effTimeoutMs req.timeoutMs cfg.ackTimeoutMs)⟩ := by
    simp [sendGroupHandler, hauth, hmsg, hres, hrun]
  refine ⟨by rw [hshape], by rw [hshape], by rw [hshape], by rw [hshape], ?_⟩
  intro hna
  rw [hshape, hna]
  simp [ackToStr, ackNames]

/-- Witness for C8: a non-matching level-4 event followed by the timeout
yields a 200 response flagged timedOut with ack "server" (no level was
known for the handle). -/
theorem sendGroup_ack_timeout_success_witness :
    ((sendGroupHandler cfgEx true reqSendEx [] sentEx
        ([WEvent.ackEv (some "true_zzz@g.us_BBB") 4] ++ WEvent.timer :: [])).status
      = 200) ∧
    ((sendGroupHandler cfgEx true reqSendEx [] sentEx
        ([WEvent.ackEv (some "true_zzz@g.us_BBB") 4] ++ WEvent.timer :: [])).timedOutOut
      = some true) := by
  have h := sendGroup_ack_timeout_success cfgEx reqSendEx [] sentEx "123@g.us"
    [WEvent.ackEv (some "true_zzz@g.us_BBB") 4] [] rfl (by decide) rfl
    (by decide) (by decide)
  exact ⟨h.1, h.2.2.1⟩

end Notifier
